import Mathlib

/-!
# The QML PDF viewer example (`examples/pdfium/viewer-qml/main.cpp`)

A shallow embedding of the two item types of the example, `PdfDocument` and
`PdfDocumentView`, as state-passing functions over a `World` that holds the
objects, the signal connections made by the code and a log of the observable
effects (library calls, signal emissions, diagnostics).

* The rendering library (`QPdfium`, `QPdfiumPage`) is a parameter: the record
  `QPdfium` lists exactly the calls the example makes.
* `qreal` is a type parameter `R` with a division, a zero and a decidable
  equality; no property of floating point arithmetic is used.
* A `QImage` is an `Option I`: `none` is the null image (`QImage()`,
  `isNull()`), `some i` an image with content.
* A `PdfDocument*` is an `Option DocId`: `none` is `nullptr`.
* The `QQuickItem` services the code calls (`polish`, `update`, `connect`,
  `disconnect`, `setImplicitWidth`, `setImplicitHeight`, signal emission over
  direct connections) are modelled after the documented behaviour of Qt Quick:
  `polish` and `update` set a pending flag, `connect` adds one connection,
  `disconnect` removes every matching one, an emission runs the connected
  slots at once, an item without an explicit size follows its implicit
  size, and the polish pass of a frame (`polishItems`) clears the pending flag
  of a view and runs its `updatePolish`, again as long as a polish is pending.
* Slots connected from QML to the signals of the two types are outside the
  file and are not modelled: an emission is recorded in the log, and runs the
  slots this file connects.
-/

namespace QtPdfium

/-- Address of a `PdfDocument` object. -/
abbrev DocId := Nat

/-- Address of a `PdfDocumentView` object. -/
abbrev ViewId := Nat

/-- The calls the example makes on the rendering library: `H` is the state of a
`QPdfium` handle, `P` a `QPdfiumPage`, `I` the content of a non-null `QImage`,
`R` is `qreal`. -/
structure QPdfium (H P I R : Type) where
  /-- State of a default-constructed `QPdfium` (member `m_pdf` of a new document). -/
  fresh : H
  /-- `QPdfium::loadFile(path)`: the state of the handle after the load. -/
  loadFile : H → String → H
  /-- `QPdfium::isValid()`. -/
  isValid : H → Bool
  /-- `QPdfium::pageCount()`. -/
  pageCount : H → Int
  /-- `QPdfium::page(i)`. -/
  page : H → Int → P
  /-- `QPdfiumPage::width()`. -/
  width : P → R
  /-- `QPdfiumPage::height()`. -/
  height : P → R
  /-- `QPdfiumPage::image(scale)`; `none` is a null `QImage`. -/
  image : P → R → Option I
  /-- `QPdfiumPage::text()`. -/
  text : P → String

/-- The three signals of `PdfDocument` (main.cpp:54-57). -/
inductive DocSignal
  | sourceChanged
  | isValidChanged
  | pageCountChanged
  deriving DecidableEq, Repr

/-- A connection from a signal of a document to the slot `QQuickItem::polish`
of a view; the only kind of connection `setDocument` makes or removes. -/
structure Connection where
  sender : DocId
  signal : DocSignal
  receiver : ViewId
  deriving DecidableEq, Repr

/-- Observable effects, in the order in which they happen. -/
inductive Event
  /-- `m_pdf.loadFile(path)` of document `doc` (main.cpp:88). -/
  | loadFile (doc : DocId) (path : String)
  /-- `pdfium.page(n)` on the handle of document `doc` (main.cpp:208). -/
  | page (doc : DocId) (n : Int)
  | sourceChanged (doc : DocId) (source : String)
  | isValidChanged (doc : DocId) (isValid : Bool)
  | pageCountChanged (doc : DocId) (pageCount : Int)
  | documentChanged (view : ViewId) (document : Option DocId)
  | pageNumberChanged (view : ViewId) (pageNumber : Int)
  | pageTextChanged (view : ViewId) (pageText : String)
  | widthChanged (view : ViewId)
  | heightChanged (view : ViewId)
  /-- A `qDebug()` line. -/
  | debug (msg : String)
  deriving DecidableEq, Repr

/-- Fields of `PdfDocument` (main.cpp:63-64). -/
structure PdfDocument (H : Type) where
  m_source : String
  m_pdf : H

/-- Fields of `PdfDocumentView` (main.cpp:137-140) and the part of its
`QQuickItem` base the code reads or writes. -/
structure PdfDocumentView (I R : Type) where
  m_document : Option DocId
  m_image : Option I
  m_pageText : String
  m_pageNumber : Int
  /-- `QQuickItem::width()`. -/
  width : R
  /-- `QQuickItem::height()`. -/
  height : R
  /-- An explicit width has been assigned to the item. -/
  widthValid : Bool
  /-- An explicit height has been assigned to the item. -/
  heightValid : Bool
  implicitWidth : R
  implicitHeight : R
  /-- Set by `polish()`: an `updatePolish` call is pending. -/
  polishScheduled : Bool
  /-- Set by `update()`: an `updatePaintNode` call is pending. -/
  updateRequested : Bool

/-- All objects, the connections from document signals to view slots, and the
effects so far. -/
structure World (H I R : Type) where
  docs : DocId → PdfDocument H
  views : ViewId → PdfDocumentView I R
  conns : List Connection
  log : List Event

/-- The node `updatePaintNode` returns: `texture` is the image its texture was
created from (`none`: no texture), `rect` is x, y, width, height. -/
structure QSGImageNode (I R : Type) where
  texture : Option I
  rect : R × R × R × R

section Model

variable {H P I R : Type}

/-- `PdfDocument::PdfDocument` (main.cpp:67-70): null source, default handle. -/
def PdfDocument.new (lib : QPdfium H P I R) : PdfDocument H :=
  { m_source := "", m_pdf := lib.fresh }

/-- `PdfDocumentView::PdfDocumentView` (main.cpp:137-149): the member
initialisers and a `QQuickItem` of size zero with nothing pending. The two
connections of the constructor (width and height changes to `polish`) are
never removed; they are built into the operations that change the size
(`setImplicitWidth`, `setImplicitHeight`, `setWidth`, `setHeight`). -/
def PdfDocumentView.new [Zero R] : PdfDocumentView I R :=
  { m_document := none, m_image := none, m_pageText := "", m_pageNumber := 0,
    width := 0, height := 0, widthValid := false, heightValid := false,
    implicitWidth := 0, implicitHeight := 0,
    polishScheduled := false, updateRequested := false }

/-- Every document and every view freshly constructed, nothing connected or
logged. -/
def World.new [Zero R] (lib : QPdfium H P I R) : World H I R :=
  { docs := fun _ => PdfDocument.new lib,
    views := fun _ => PdfDocumentView.new,
    conns := [],
    log := [] }

/-- Replace the state of view `v`. -/
def World.setView (w : World H I R) (v : ViewId)
    (s : PdfDocumentView I R) : World H I R :=
  { w with views := Function.update w.views v s }

/-- Replace the state of document `d`. -/
def World.setDoc (w : World H I R) (d : DocId) (s : PdfDocument H) : World H I R :=
  { w with docs := Function.update w.docs d s }

/-- Append an effect to the log. -/
def World.record (w : World H I R) (e : Event) : World H I R :=
  { w with log := w.log ++ [e] }

/-- `QQuickItem::polish()`: schedule one `updatePolish` call; nothing more
happens when one is scheduled already. -/
def polish (w : World H I R) (v : ViewId) : World H I R :=
  w.setView v { w.views v with polishScheduled := true }

/-- `QQuickItem::update()`: schedule a repaint (`updatePaintNode`). -/
def update (w : World H I R) (v : ViewId) : World H I R :=
  w.setView v { w.views v with updateRequested := true }

/-- `QObject::connect`: one more connection, also when an equal one exists. -/
def connect (w : World H I R) (c : Connection) : World H I R :=
  { w with conns := w.conns ++ [c] }

/-- `QObject::disconnect(sender, signal, receiver, slot)`: every connection
that matches is removed. -/
def disconnect (w : World H I R) (c : Connection) : World H I R :=
  { w with conns := w.conns.filter (fun c' => decide (c' ≠ c)) }

/-- The receivers whose `polish` slot an emission of signal `k` by document `d`
invokes, one entry per connection, in connection order. -/
def receivers (w : World H I R) (d : DocId) (k : DocSignal) : List ViewId :=
  (w.conns.filter (fun c => decide (c.sender = d ∧ c.signal = k))).map Connection.receiver

/-- `emit` of a document signal: the emission is logged and the slot of every
connection of that signal runs at once (direct connections). -/
def emitDoc (w : World H I R) (d : DocId) (k : DocSignal) (e : Event) : World H I R :=
  (receivers w d k).foldl polish (w.record e)

/-- `PdfDocument::source` (main.cpp:72-75). -/
def source (w : World H I R) (d : DocId) : String :=
  (w.docs d).m_source

/-- `PdfDocument::pageCount` (main.cpp:100-103). -/
def pageCount (lib : QPdfium H P I R) (w : World H I R) (d : DocId) : Int :=
  lib.pageCount (w.docs d).m_pdf

/-- `PdfDocument::isValid` (main.cpp:105-108). -/
def isValid (lib : QPdfium H P I R) (w : World H I R) (d : DocId) : Bool :=
  lib.isValid (w.docs d).m_pdf

/-- `PdfDocument::setSource` (main.cpp:77-98). -/
def setSource (lib : QPdfium H P I R) (w : World H I R) (d : DocId) (src : String) :
    World H I R :=
  if src = (w.docs d).m_source then w
  else
    let w1 := w.setDoc d { w.docs d with m_source := src }
    let wasValid := isValid lib w1 d
    let oldPageCount := pageCount lib w1 d
    let w2 := (w1.record (.loadFile d src)).setDoc d
      { w1.docs d with m_pdf := lib.loadFile (w1.docs d).m_pdf src }
    let w3 := emitDoc w2 d .sourceChanged (.sourceChanged d src)
    let w4 := if isValid lib w3 d ≠ wasValid then
        emitDoc w3 d .isValidChanged (.isValidChanged d (isValid lib w3 d))
      else w3
    if pageCount lib w4 d ≠ oldPageCount then
      emitDoc w4 d .pageCountChanged (.pageCountChanged d (pageCount lib w4 d))
    else w4

/-- `PdfDocumentView::document` (main.cpp:151-152). -/
def document (w : World H I R) (v : ViewId) : Option DocId :=
  (w.views v).m_document

/-- `PdfDocumentView::setDocument` (main.cpp:154-173). -/
def setDocument (w : World H I R) (v : ViewId) (doc : Option DocId) : World H I R :=
  if doc = (w.views v).m_document then w
  else
    let w1 := match (w.views v).m_document with
      | some old =>
        disconnect (disconnect w ⟨old, .sourceChanged, v⟩) ⟨old, .isValidChanged, v⟩
      | none => w
    let w2 := w1.setView v { w1.views v with m_document := doc }
    let w3 := match (w2.views v).m_document with
      | some cur =>
        connect (connect w2 ⟨cur, .sourceChanged, v⟩) ⟨cur, .isValidChanged, v⟩
      | none => w2
    polish w3 v

/-- `PdfDocumentView::pageNumber` (main.cpp:175-178). -/
def pageNumber (w : World H I R) (v : ViewId) : Int :=
  (w.views v).m_pageNumber

/-- `PdfDocumentView::setPageNumber` (main.cpp:180-189). The code connects
nothing to `pageNumberChanged`, so the emission is only logged. -/
def setPageNumber (w : World H I R) (v : ViewId) (n : Int) : World H I R :=
  if n = (w.views v).m_pageNumber then w
  else
    let w1 := w.setView v { w.views v with m_pageNumber := n }
    let w2 := w1.record (.pageNumberChanged v n)
    polish w2 v

/-- `PdfDocumentView::pageText` (main.cpp:191-194). -/
def pageText (w : World H I R) (v : ViewId) : String :=
  (w.views v).m_pageText

/-- `QQuickItem::setImplicitWidth(x)`, as Qt Quick documents `implicitWidth`
("if width or height is not specified, an item's effective size will be
determined by its implicitWidth or implicitHeight"): the implicit width
becomes `x`; an item with an explicit width, or whose width is `x` already,
keeps its width; any other item gets width `x`, and `widthChanged` is
emitted, which runs `polish` through the connection made by the constructor
(main.cpp:147). -/
def setImplicitWidth [DecidableEq R] (w : World H I R) (v : ViewId) (x : R) : World H I R :=
  let w1 := w.setView v { w.views v with implicitWidth := x }
  if (w1.views v).width = x ∨ (w1.views v).widthValid = true then w1
  else
    let w2 := w1.setView v { w1.views v with width := x }
    polish (w2.record (.widthChanged v)) v

/-- `QQuickItem::setImplicitHeight(x)`: as `setImplicitWidth`, for the height
(connection of main.cpp:148). -/
def setImplicitHeight [DecidableEq R] (w : World H I R) (v : ViewId) (x : R) : World H I R :=
  let w1 := w.setView v { w.views v with implicitHeight := x }
  if (w1.views v).height = x ∨ (w1.views v).heightValid = true then w1
  else
    let w2 := w1.setView v { w1.views v with height := x }
    polish (w2.record (.heightChanged v)) v

/-- The branch of `updatePolish` taken without a valid document
(main.cpp:199-204). -/
def unableToLoad (w : World H I R) (v : ViewId) : World H I R :=
  let w1 := w.record (.debug "Unable to load pdf")
  let w2 := w1.setView v { w1.views v with m_image := none }
  let w3 := update w2 v
  let w4 := w3.setView v { w3.views v with m_pageText := "" }
  w4.record (.pageTextChanged v (w4.views v).m_pageText)

/-- `PdfDocumentView::updatePolish` (main.cpp:196-216). -/
def updatePolish [DecidableEq R] [Div R] (lib : QPdfium H P I R) (w : World H I R)
    (v : ViewId) : World H I R :=
  match (w.views v).m_document with
  | none => unableToLoad w v
  | some d =>
    if isValid lib w d = false then unableToLoad w v
    else
      let page := lib.page (w.docs d).m_pdf (w.views v).m_pageNumber
      let w0 := w.record (.page d (w.views v).m_pageNumber)
      let w1 := setImplicitWidth w0 v (lib.width page)
      let w2 := setImplicitHeight w1 v (lib.height page)
      let scale := (w2.views v).width / lib.width page
      let w3 := w2.setView v { w2.views v with m_image := lib.image page scale }
      let w4 := w3.setView v { w3.views v with m_pageText := lib.text page }
      let w5 := w4.record (.pageTextChanged v (w4.views v).m_pageText)
      update w5 v

/-- `PdfDocumentView::updatePaintNode` (main.cpp:218-235), on the state `s` of
the view: `oldNode` and the result are `none` for `nullptr`. A node made by
`createImageNode` starts without a texture. -/
def updatePaintNode [Zero R] (s : PdfDocumentView I R) (oldNode : Option (QSGImageNode I R)) :
    Option (QSGImageNode I R) :=
  match s.m_image with
  | none => none
  | some img =>
    let node : QSGImageNode I R := match oldNode with
      | none => { texture := none, rect := (0, 0, 0, 0) }
      | some n => { n with texture := none }
    some { node with texture := some img, rect := (0, 0, s.width, s.height) }

/-- A sequence of `setSource` calls on document `d`, first call first. -/
def setSources (lib : QPdfium H P I R) (w : World H I R) (d : DocId) :
    List String → World H I R
  | [] => w
  | s :: rest => setSources lib (setSource lib w d s) d rest

/-- Whether at least one call of a sequence of `setSource` calls on document
`d` changes the source: whether some call is given a path other than the
source the document has when the call is made. -/
def changesSource (lib : QPdfium H P I R) (w : World H I R) (d : DocId) : List String → Bool
  | [] => false
  | s :: rest => decide (s ≠ source w d) || changesSource lib (setSource lib w d s) d rest

/-- Number of connections from signal `k` of document `d` to the `polish` slot
of view `v`. -/
def connectionCount (w : World H I R) (d : DocId) (k : DocSignal) (v : ViewId) : Nat :=
  w.conns.count ⟨d, k, v⟩

/-- The subscription invariant: for `sourceChanged` and for `isValidChanged`,
each view is connected exactly once to its current document and not at all
to any other document. -/
def Subscribed (w : World H I R) : Prop :=
  ∀ (v : ViewId) (d : DocId) (k : DocSignal), k ≠ DocSignal.pageCountChanged →
    connectionCount w d k v = if document w v = some d then 1 else 0

/-- A sequence of `setDocument` calls, each on the view it names, first call
first. -/
def setDocuments (w : World H I R) : List (ViewId × Option DocId) → World H I R
  | [] => w
  | c :: rest => setDocuments (setDocument w c.1 c.2) rest

/-- The two connections `setDocument` makes to document `doc` (none for
`nullptr`). -/
def madeConnections (v : ViewId) : Option DocId → List Connection
  | some cur => [⟨cur, DocSignal.sourceChanged, v⟩, ⟨cur, DocSignal.isValidChanged, v⟩]
  | none => []

/-- The connections `setDocument` leaves after disconnecting from `doc`. -/
def keptConnections (v : ViewId) (conns : List Connection) : Option DocId → List Connection
  | some old =>
    (conns.filter (fun c' => decide (c' ≠ ⟨old, DocSignal.sourceChanged, v⟩))).filter
      (fun c' => decide (c' ≠ ⟨old, DocSignal.isValidChanged, v⟩))
  | none => conns

/-- Recognises a `pageTextChanged` emission (of any view). -/
def Event.isPageTextChanged : Event → Bool
  | .pageTextChanged _ _ => true
  | _ => false

/-- Recognises the two effects only `updatePolish` has: a page request to the
library and a `pageTextChanged` emission. -/
def Event.isRender : Event → Bool
  | .page _ _ => true
  | .pageTextChanged _ _ => true
  | _ => false

/-- A property change made from outside: on the view, or on the document
attached to the view at the time of the call. -/
inductive Call
  | setPageNumber (n : Int)
  | setDocument (doc : Option DocId)
  | setSource (s : String)

/-- Make one call on view `v`; `setSource` goes to the attached document, and
cannot be made while none is attached. -/
def Call.run (lib : QPdfium H P I R) (w : World H I R) (v : ViewId) : Call → World H I R
  | .setPageNumber n => QtPdfium.setPageNumber w v n
  | .setDocument doc => QtPdfium.setDocument w v doc
  | .setSource s =>
    match document w v with
    | some d => QtPdfium.setSource lib w d s
    | none => w

/-- Whether the call is given a value other than the one currently held. -/
def Call.changes (w : World H I R) (v : ViewId) : Call → Bool
  | .setPageNumber n => decide (n ≠ pageNumber w v)
  | .setDocument doc => decide (doc ≠ document w v)
  | .setSource s =>
    match document w v with
    | some d => decide (s ≠ source w d)
    | none => false

/-- A sequence of calls on view `v`, first call first. -/
def runCalls (lib : QPdfium H P I R) (w : World H I R) (v : ViewId) :
    List Call → World H I R
  | [] => w
  | c :: rest => runCalls lib (c.run lib w v) v rest

/-- Whether some call of the sequence is given a value other than the one held
when it is made. -/
def anyChange (lib : QPdfium H P I R) (w : World H I R) (v : ViewId) : List Call → Bool
  | [] => false
  | c :: rest => c.changes w v || anyChange lib (c.run lib w v) v rest

/-- What the window's polish pass does to a view before it calls
`updatePolish` on it: the pending flag is cleared. -/
def clearPolish (w : World H I R) (v : ViewId) : World H I R :=
  w.setView v { w.views v with polishScheduled := false }

/-- The frame's polish pass (`QQuickWindowPrivate::polishItems`), for view
`v`: as long as a polish of the view is pending, the flag is cleared and
`updatePolish` is run, so a run that requests a polish again is followed by
another run in the same pass. `fuel` bounds the number of runs, as the
recursion guard of Qt does. The result is the world after the pass and the
number of `updatePolish` runs made. -/
def polishItems [DecidableEq R] [Div R] (lib : QPdfium H P I R) :
    Nat → World H I R → ViewId → World H I R × Nat
  | 0, w, _ => (w, 0)
  | fuel + 1, w, v =>
    if (w.views v).polishScheduled = true then
      let r := polishItems lib fuel (updatePolish lib (clearPolish w v) v) v
      (r.1, r.2 + 1)
    else (w, 0)

/-- Whether an `updatePolish` run on view `v` changes the width or the height
of the item. -/
def resizes [DecidableEq R] [Div R] (lib : QPdfium H P I R) (w : World H I R)
    (v : ViewId) : Bool :=
  decide (((updatePolish lib w v).views v).width ≠ (w.views v).width ∨
    ((updatePolish lib w v).views v).height ≠ (w.views v).height)

/-- `QQuickItem::setWidth(x)`, as a QML declaration or binding calls it: the
item has an explicit width from now on; when the width changes,
`widthChanged` is emitted, which runs `polish` (main.cpp:147). -/
def setWidth [DecidableEq R] (w : World H I R) (v : ViewId) (x : R) : World H I R :=
  let w1 := w.setView v { w.views v with widthValid := true }
  if (w1.views v).width = x then w1
  else
    let w2 := w1.setView v { w1.views v with width := x }
    polish (w2.record (.widthChanged v)) v

/-- `QQuickItem::setHeight(x)`: as `setWidth`, for the height (main.cpp:148). -/
def setHeight [DecidableEq R] (w : World H I R) (v : ViewId) (x : R) : World H I R :=
  let w1 := w.setView v { w.views v with heightValid := true }
  if (w1.views v).height = x then w1
  else
    let w2 := w1.setView v { w1.views v with height := x }
    polish (w2.record (.heightChanged v)) v

end Model

/-! ## A small library instance, for concrete runs -/

/-- A library over a file system holding two documents: `a.pdf` (two pages of
100 by 200) and `b.pdf` (one page of 300 by 400). A handle is the path of its
last load, a page the path and index it was asked for (`none` when there is no
such page), an image the page and the scale it was rendered at. -/
def demo : QPdfium (Option String) (Option (String × Int)) (String × Int × ℚ) ℚ where
  fresh := none
  loadFile := fun _ p => some p
  isValid := fun h => decide (h = some "a.pdf" ∨ h = some "b.pdf")
  pageCount := fun h =>
    if h = some "a.pdf" then 2 else if h = some "b.pdf" then 1 else 0
  page := fun h i =>
    if h = some "a.pdf" ∧ 0 ≤ i ∧ i < 2 then some ("a.pdf", i)
    else if h = some "b.pdf" ∧ i = 0 then some ("b.pdf", i)
    else none
  width := fun p =>
    match p with
    | some (f, _) => if f = "a.pdf" then 100 else 300
    | none => 0
  height := fun p =>
    match p with
    | some (f, _) => if f = "a.pdf" then 200 else 400
    | none => 0
  image := fun p s => p.map (fun q => (q.1, q.2, s))
  text := fun p =>
    match p with
    | some (f, _) => "text of " ++ f
    | none => ""

/-- The world in which every object is new, over the library `demo`. -/
def demoWorld : World (Option String) (String × Int × ℚ) ℚ :=
  World.new demo

/-- Document 0 has loaded `a.pdf` and is the document of view 0; the view has
no explicit size and has not been polished yet. -/
def demoAttached : World (Option String) (String × Int × ℚ) ℚ :=
  setDocument (setSource demo demoWorld 0 "a.pdf") 0 (some 0)

/-- View 0 of `demoAttached` after its polish pass: it shows page 0 of `a.pdf`. -/
def demoShown : World (Option String) (String × Int × ℚ) ℚ :=
  updatePolish demo demoAttached 0

/-- View 0 shows page 0 of `a.pdf`, and its document has then been pointed at
a file that does not exist. -/
def demoStale : World (Option String) (String × Int × ℚ) ℚ :=
  setSource demo demoShown 0 "missing.pdf"

/-- World `demoAttached` after its first polish pass: view 0 shows page 0 of
`a.pdf`, has taken the size of the page, and has no polish pending. -/
def demoIdle : World (Option String) (String × Int × ℚ) ℚ :=
  (polishItems demo 3 demoAttached 0).1

/-- World `demoAttached` with view 0 given the explicit size 50 by 80, after
its first polish pass: the view shows page 0 of `a.pdf` at scale 1/2 and has
no polish pending. -/
def demoSized : World (Option String) (String × Int × ℚ) ℚ :=
  (polishItems demo 3 (setHeight (setWidth demoAttached 0 50) 0 80) 0).1

/-! ## Basic facts about the framework services -/

section Lemmas

variable {H P I R : Type}

theorem foldl_polish_docs (vs : List ViewId) (w : World H I R) :
    (vs.foldl polish w).docs = w.docs := by
  induction vs generalizing w with
  | nil => rfl
  | cons a vs ih => simp [List.foldl_cons, ih, polish, World.setView]

theorem foldl_polish_conns (vs : List ViewId) (w : World H I R) :
    (vs.foldl polish w).conns = w.conns := by
  induction vs generalizing w with
  | nil => rfl
  | cons a vs ih => simp [List.foldl_cons, ih, polish, World.setView]

theorem foldl_polish_log (vs : List ViewId) (w : World H I R) :
    (vs.foldl polish w).log = w.log := by
  induction vs generalizing w with
  | nil => rfl
  | cons a vs ih => simp [List.foldl_cons, ih, polish, World.setView]

/-- Running `polish` for a list of receivers sets the flag of exactly the views
in the list and touches nothing else. -/
theorem foldl_polish_views (vs : List ViewId) (w : World H I R) (v : ViewId) :
    (vs.foldl polish w).views v =
      if v ∈ vs then { w.views v with polishScheduled := true } else w.views v := by
  induction vs generalizing w with
  | nil => simp
  | cons a vs ih =>
    rw [List.foldl_cons, ih]
    by_cases hva : v = a
    · subst hva
      simp [polish, World.setView]
    · by_cases hmem : v ∈ vs
      · simp [polish, World.setView, hva, hmem, Function.update_noteq]
      · simp [polish, World.setView, hva, hmem, Function.update_noteq]

theorem emitDoc_docs (w : World H I R) (d : DocId) (k : DocSignal) (e : Event) :
    (emitDoc w d k e).docs = w.docs := by
  simp [emitDoc, foldl_polish_docs, World.record]

theorem emitDoc_conns (w : World H I R) (d : DocId) (k : DocSignal) (e : Event) :
    (emitDoc w d k e).conns = w.conns := by
  simp [emitDoc, foldl_polish_conns, World.record]

theorem emitDoc_log (w : World H I R) (d : DocId) (k : DocSignal) (e : Event) :
    (emitDoc w d k e).log = w.log ++ [e] := by
  simp [emitDoc, foldl_polish_log, World.record]

theorem emitDoc_views (w : World H I R) (d : DocId) (k : DocSignal) (e : Event) (v : ViewId) :
    (emitDoc w d k e).views v =
      if v ∈ receivers w d k then { w.views v with polishScheduled := true }
      else w.views v := by
  rw [emitDoc, foldl_polish_views]
  rfl

theorem setImplicitWidth_docs [DecidableEq R] (w : World H I R) (v : ViewId) (x : R) :
    (setImplicitWidth w v x).docs = w.docs := by
  unfold setImplicitWidth
  dsimp only
  split_ifs <;> rfl

theorem setImplicitWidth_log [DecidableEq R] (w : World H I R) (v : ViewId) (x : R) :
    (setImplicitWidth w v x).log =
      w.log ++ (if (w.views v).width = x ∨ (w.views v).widthValid = true then []
        else [Event.widthChanged v]) := by
  unfold setImplicitWidth
  by_cases h : (w.views v).width = x ∨ (w.views v).widthValid = true
  · simp [World.setView, h]
  · simp [World.setView, World.record, polish, h]

/-- The view after `setImplicitWidth x`: the implicit width is `x`, the width
stays when it is explicit and becomes `x` otherwise, and a polish is
requested when the width changed. -/
theorem setImplicitWidth_view [DecidableEq R] (w : World H I R) (v : ViewId) (x : R) :
    (setImplicitWidth w v x).views v =
      { w.views v with
        implicitWidth := x
        width := if (w.views v).widthValid = true then (w.views v).width else x
        polishScheduled := (w.views v).polishScheduled ||
          !decide ((w.views v).width = x ∨ (w.views v).widthValid = true) } := by
  unfold setImplicitWidth
  by_cases h : (w.views v).width = x ∨ (w.views v).widthValid = true
  · rcases h with h | h
    · by_cases h2 : (w.views v).widthValid = true <;> simp [World.setView, h, h2]
    · simp [World.setView, h]
  · have h1 : ¬ (w.views v).width = x := fun e => h (Or.inl e)
    have h2 : (w.views v).widthValid = false := by
      cases hh : (w.views v).widthValid
      · rfl
      · exact absurd (Or.inr hh) h
    simp [World.setView, World.record, polish, h1, h2]

theorem setImplicitHeight_docs [DecidableEq R] (w : World H I R) (v : ViewId) (x : R) :
    (setImplicitHeight w v x).docs = w.docs := by
  unfold setImplicitHeight
  dsimp only
  split_ifs <;> rfl

theorem setImplicitHeight_log [DecidableEq R] (w : World H I R) (v : ViewId) (x : R) :
    (setImplicitHeight w v x).log =
      w.log ++ (if (w.views v).height = x ∨ (w.views v).heightValid = true then []
        else [Event.heightChanged v]) := by
  unfold setImplicitHeight
  by_cases h : (w.views v).height = x ∨ (w.views v).heightValid = true
  · simp [World.setView, h]
  · simp [World.setView, World.record, polish, h]

/-- The view after `setImplicitHeight x`, as `setImplicitWidth_view`. -/
theorem setImplicitHeight_view [DecidableEq R] (w : World H I R) (v : ViewId) (x : R) :
    (setImplicitHeight w v x).views v =
      { w.views v with
        implicitHeight := x
        height := if (w.views v).heightValid = true then (w.views v).height else x
        polishScheduled := (w.views v).polishScheduled ||
          !decide ((w.views v).height = x ∨ (w.views v).heightValid = true) } := by
  unfold setImplicitHeight
  by_cases h : (w.views v).height = x ∨ (w.views v).heightValid = true
  · rcases h with h | h
    · by_cases h2 : (w.views v).heightValid = true <;> simp [World.setView, h, h2]
    · simp [World.setView, h]
  · have h1 : ¬ (w.views v).height = x := fun e => h (Or.inl e)
    have h2 : (w.views v).heightValid = false := by
      cases hh : (w.views v).heightValid
      · rfl
      · exact absurd (Or.inr hh) h
    simp [World.setView, World.record, polish, h1, h2]

end Lemmas

/-! ## The setters -/

section Setters

variable {H P I R : Type}

/-- C4: each of the three setters, given the value currently held, returns the
world as it was: no field of any object changes, no connection is made or
removed, nothing is loaded, emitted or logged, and no polish is requested. -/
theorem setters_same_value_noop (lib : QPdfium H P I R) (w : World H I R)
    (d : DocId) (v : ViewId) :
    setSource lib w d (source w d) = w ∧
    setPageNumber w v (pageNumber w v) = w ∧
    setDocument w v (document w v) = w := by
  refine ⟨?_, ?_, ?_⟩
  · simp [setSource, source]
  · simp [setPageNumber, pageNumber]
  · simp [setDocument, document]

/-- C7: for every integer `n` other than the current page number,
`setPageNumber(n)` makes `pageNumber()` return `n`, emits
`pageNumberChanged(n)` exactly once (the only effect added to the log) and
requests a polish pass. -/
theorem setPageNumber_changes (w : World H I R) (v : ViewId) (n : Int)
    (h : n ≠ pageNumber w v) :
    pageNumber (setPageNumber w v n) v = n ∧
    (setPageNumber w v n).log = w.log ++ [Event.pageNumberChanged v n] ∧
    ((setPageNumber w v n).views v).polishScheduled = true := by
  have h1 : ¬ n = (w.views v).m_pageNumber := h
  simp [setPageNumber, pageNumber, h1, polish, World.setView, World.record]

/-- C3: for every path `s` other than the current source, `setSource(s)`
stores `s`, loads it into the handle once, and adds to the log, in this order,
the load, `sourceChanged(s)`, `isValidChanged(new validity)` exactly when the
validity differs from the one before the load, and
`pageCountChanged(new count)` exactly when the page count differs from the one
before the load; nothing else is logged. -/
theorem setSource_loads_and_notifies (lib : QPdfium H P I R) (w : World H I R)
    (d : DocId) (s : String) (h : s ≠ source w d) :
    source (setSource lib w d s) d = s ∧
    ((setSource lib w d s).docs d).m_pdf = lib.loadFile (w.docs d).m_pdf s ∧
    (setSource lib w d s).log =
      w.log ++ [Event.loadFile d s, Event.sourceChanged d s]
        ++ (if isValid lib (setSource lib w d s) d ≠ isValid lib w d
            then [Event.isValidChanged d (isValid lib (setSource lib w d s) d)] else [])
        ++ (if pageCount lib (setSource lib w d s) d ≠ pageCount lib w d
            then [Event.pageCountChanged d (pageCount lib (setSource lib w d s) d)]
            else []) := by
  have h1 : ¬ s = (w.docs d).m_source := h
  unfold setSource
  simp only [h1, if_false]
  by_cases hv : lib.isValid (lib.loadFile (w.docs d).m_pdf s) = lib.isValid (w.docs d).m_pdf
  · by_cases hc : lib.pageCount (lib.loadFile (w.docs d).m_pdf s) = lib.pageCount (w.docs d).m_pdf
    · simp [source, isValid, pageCount, emitDoc_docs, emitDoc_log, World.setDoc, World.record, hv, hc]
    · simp [source, isValid, pageCount, emitDoc_docs, emitDoc_log, World.setDoc, World.record, hv, hc]
  · by_cases hc : lib.pageCount (lib.loadFile (w.docs d).m_pdf s) = lib.pageCount (w.docs d).m_pdf
    · simp [source, isValid, pageCount, emitDoc_docs, emitDoc_log, World.setDoc, World.record, hv, hc]
    · simp [source, isValid, pageCount, emitDoc_docs, emitDoc_log, World.setDoc, World.record, hv, hc]

/-- Witness for C7, at a negative page number on a new view. -/
theorem setPageNumber_changes_witness :
    (-1 : Int) ≠ pageNumber demoWorld 0 ∧
    pageNumber (setPageNumber demoWorld 0 (-1)) 0 = -1 ∧
    (setPageNumber demoWorld 0 (-1)).log = [Event.pageNumberChanged 0 (-1)] ∧
    ((setPageNumber demoWorld 0 (-1)).views 0).polishScheduled = true :=
  ⟨by decide, (setPageNumber_changes demoWorld 0 (-1) (by decide)).1,
    (setPageNumber_changes demoWorld 0 (-1) (by decide)).2.1,
    (setPageNumber_changes demoWorld 0 (-1) (by decide)).2.2⟩

/-- Witness for C3: a new document loads `a.pdf`; validity and page count both
change, so all three signals are emitted. -/
theorem setSource_loads_and_notifies_witness :
    "a.pdf" ≠ source demoWorld 0 ∧
    (setSource demo demoWorld 0 "a.pdf").log =
      [Event.loadFile 0 "a.pdf", Event.sourceChanged 0 "a.pdf",
        Event.isValidChanged 0 true, Event.pageCountChanged 0 2] :=
  ⟨by decide,
    (setSource_loads_and_notifies demo demoWorld 0 "a.pdf" (by decide)).2.2.trans (by decide)⟩

/-- `setDocument` logs nothing: it emits no signal at all. -/
theorem setDocument_log (w : World H I R) (v : ViewId) (doc : Option DocId) :
    (setDocument w v doc).log = w.log := by
  unfold setDocument
  split_ifs
  · rfl
  · cases h1 : (w.views v).m_document <;> cases doc <;>
      simp [polish, World.setView, connect, disconnect]

/-- C6, the code at the failing input: on a new view, `setDocument` with a
document other than the current one stores the pointer and emits nothing, so
`documentChanged` is not emitted. -/
theorem setDocument_emits_nothing_at_new_view :
    some 0 ≠ document demoWorld 0 ∧
    document (setDocument demoWorld 0 (some 0)) 0 = some 0 ∧
    (setDocument demoWorld 0 (some 0)).log = [] := by
  decide

/-- After `setSource(s)` the source is `s`, whether or not it was before. -/
theorem setSource_source (lib : QPdfium H P I R) (w : World H I R) (d : DocId) (s : String) :
    source (setSource lib w d s) d = s := by
  by_cases h : s = (w.docs d).m_source
  · simp [setSource, source, h]
  · unfold setSource
    simp only [h, if_false]
    split_ifs <;> simp [source, emitDoc_docs, World.setDoc, World.record]

/-- The handle of the document after `setSource(s)`: loaded with `s` when `s`
differs from the source, untouched otherwise. -/
theorem setSource_pdf (lib : QPdfium H P I R) (w : World H I R) (d : DocId) (s : String) :
    ((setSource lib w d s).docs d).m_pdf =
      if s = source w d then (w.docs d).m_pdf else lib.loadFile (w.docs d).m_pdf s := by
  by_cases h : s = (w.docs d).m_source
  · simp [setSource, source, h]
  · unfold setSource
    simp only [h, if_false, source]
    split_ifs <;> simp [emitDoc_docs, World.setDoc, World.record]

/-- Once the handle holds a load of the current source, it does so after any
further sequence of `setSource` calls, and the source is then the argument of
the last call. -/
theorem setSources_derived (lib : QPdfium H P I R) (d : DocId) (args : List String) :
    ∀ (w : World H I R) (s : String), (source w d :: args).getLast? = some s →
      (∃ h, (w.docs d).m_pdf = lib.loadFile h (source w d)) →
      source (setSources lib w d args) d = s ∧
      ∃ h, ((setSources lib w d args).docs d).m_pdf = lib.loadFile h s := by
  induction args with
  | nil =>
    intro w s hs hw
    simp at hs
    subst hs
    exact ⟨rfl, hw⟩
  | cons a rest ih =>
    intro w s hs hw
    rw [List.getLast?_cons_cons] at hs
    have hsrc := setSource_source lib w d a
    apply ih (setSource lib w d a) s (by rw [hsrc]; exact hs)
    rw [setSource_pdf, hsrc]
    by_cases ha : a = source w d
    · rw [if_pos ha, ha]
      exact hw
    · rw [if_neg ha]
      exact ⟨_, rfl⟩

/-- C8: after any sequence of `setSource` calls of which at least one changed
the source, `source()` is the argument of the last call, and the handle is
one whose most recent load was that path, so `isValid()` and `pageCount()`
are what the library reports for such a handle. -/
theorem setSources_readouts (lib : QPdfium H P I R) (w : World H I R) (d : DocId)
    (args : List String) (s : String) (hlast : args.getLast? = some s)
    (hchg : changesSource lib w d args = true) :
    source (setSources lib w d args) d = s ∧
    ∃ h, ((setSources lib w d args).docs d).m_pdf = lib.loadFile h s ∧
      isValid lib (setSources lib w d args) d = lib.isValid (lib.loadFile h s) ∧
      pageCount lib (setSources lib w d args) d = lib.pageCount (lib.loadFile h s) := by
  suffices key : source (setSources lib w d args) d = s ∧
      ∃ h, ((setSources lib w d args).docs d).m_pdf = lib.loadFile h s by
    obtain ⟨h1, h, h2⟩ := key
    exact ⟨h1, h, h2, by rw [isValid, h2], by rw [pageCount, h2]⟩
  induction args generalizing w with
  | nil => simp [changesSource] at hchg
  | cons a rest ih =>
    have hsrc := setSource_source lib w d a
    by_cases ha : a = source w d
    · have hw : setSource lib w d a = w := by
        unfold setSource
        exact if_pos ha
      have hrest : rest.getLast? = some s := by
        cases rest with
        | nil => simp [changesSource, ha] at hchg
        | cons b rest' => rwa [List.getLast?_cons_cons] at hlast
      have hchg' : changesSource lib w d rest = true := by
        have h2 := hchg
        simp only [changesSource] at h2
        rw [hw] at h2
        simpa [ha] using h2
      have hcons : setSources lib w d (a :: rest) = setSources lib w d rest := by
        rw [setSources, hw]
      rw [hcons]
      exact ih w hrest hchg'
    · rw [setSources]
      apply setSources_derived lib d rest (setSource lib w d a) s
      · rw [hsrc]
        cases rest with
        | nil => simpa using hlast
        | cons b rest' =>
          rw [List.getLast?_cons_cons] at hlast ⊢
          exact hlast
      · rw [setSource_pdf, hsrc, if_neg ha]
        exact ⟨_, rfl⟩

/-- Witness for C8: a new document is pointed at `a.pdf`, then at a missing
file, then at the same missing file again. -/
theorem setSources_readouts_witness :
    changesSource demo demoWorld 0 ["a.pdf", "missing.pdf", "missing.pdf"] = true ∧
    source (setSources demo demoWorld 0 ["a.pdf", "missing.pdf", "missing.pdf"]) 0
      = "missing.pdf" ∧
    ∃ h, ((setSources demo demoWorld 0 ["a.pdf", "missing.pdf", "missing.pdf"]).docs 0).m_pdf
        = demo.loadFile h "missing.pdf" ∧
      isValid demo (setSources demo demoWorld 0 ["a.pdf", "missing.pdf", "missing.pdf"]) 0
        = demo.isValid (demo.loadFile h "missing.pdf") ∧
      pageCount demo (setSources demo demoWorld 0 ["a.pdf", "missing.pdf", "missing.pdf"]) 0
        = demo.pageCount (demo.loadFile h "missing.pdf") :=
  ⟨by decide,
    setSources_readouts demo demoWorld 0 ["a.pdf", "missing.pdf", "missing.pdf"] "missing.pdf"
      (by decide) (by decide)⟩

end Setters

/-! ## The polish pass and the paint node -/

section Polish

variable {H P I R : Type}

/-- C1: when no document is set, or the set document is not valid, one
`updatePolish` pass leaves the cached bitmap null and `pageText()` empty,
whatever they held before, requests a repaint, and `updatePaintNode` on the
resulting view returns no node for every `oldNode`. -/
theorem updatePolish_without_valid_document [DecidableEq R] [Div R] [Zero R]
    (lib : QPdfium H P I R) (w : World H I R) (v : ViewId)
    (h : document w v = none ∨ ∃ d, document w v = some d ∧ isValid lib w d = false) :
    ((updatePolish lib w v).views v).m_image = none ∧
    pageText (updatePolish lib w v) v = "" ∧
    ((updatePolish lib w v).views v).updateRequested = true ∧
    ∀ oldNode, updatePaintNode ((updatePolish lib w v).views v) oldNode = none := by
  have key : updatePolish lib w v = unableToLoad w v := by
    rcases h with h | ⟨d, hd, hv⟩
    · have h1 : (w.views v).m_document = none := h
      simp [updatePolish, h1]
    · have h1 : (w.views v).m_document = some d := hd
      simp [updatePolish, h1, hv]
  rw [key]
  simp [unableToLoad, pageText, update, World.setView, World.record, updatePaintNode]

/-- Witness for C1: view 0 of `demoStale` holds a bitmap and a text, and its
document is no longer valid. -/
theorem updatePolish_without_valid_document_witness :
    (document demoStale 0 = some 0 ∧ isValid demo demoStale 0 = false) ∧
    (demoStale.views 0).m_image.isSome = true ∧ pageText demoStale 0 = "text of a.pdf" ∧
    ((updatePolish demo demoStale 0).views 0).m_image = none ∧
    pageText (updatePolish demo demoStale 0) 0 = "" ∧
    ((updatePolish demo demoStale 0).views 0).updateRequested = true ∧
    ∀ oldNode, updatePaintNode ((updatePolish demo demoStale 0).views 0) oldNode = none :=
  ⟨by decide, by decide, by decide,
    updatePolish_without_valid_document demo demoStale 0
      (Or.inr ⟨0, by decide, by decide⟩)⟩

/-- C10: every `updatePolish` pass, on either branch, only appends to the log,
and what it appends holds exactly one `pageTextChanged`, carrying the value
`pageText()` returns after the pass; no comparison with the previous text is
made. -/
theorem updatePolish_emits_pageTextChanged_once [DecidableEq R] [Div R]
    (lib : QPdfium H P I R) (w : World H I R) (v : ViewId) :
    ∃ es, (updatePolish lib w v).log = w.log ++ es ∧
      es.filter Event.isPageTextChanged =
        [Event.pageTextChanged v (pageText (updatePolish lib w v) v)] := by
  unfold updatePolish
  cases hdoc : (w.views v).m_document with
  | none =>
    refine ⟨[Event.debug "Unable to load pdf", Event.pageTextChanged v ""], ?_, ?_⟩
    · simp [unableToLoad, update, World.setView, World.record]
    · simp [unableToLoad, pageText, update, World.setView, World.record,
        Event.isPageTextChanged]
  | some d =>
    by_cases hv : isValid lib w d = false
    · refine ⟨[Event.debug "Unable to load pdf", Event.pageTextChanged v ""], ?_, ?_⟩
      · simp [hv, unableToLoad, update, World.setView, World.record]
      · simp [hv, unableToLoad, pageText, update, World.setView, World.record,
          Event.isPageTextChanged]
    · dsimp only
      rw [if_neg hv]
      simp only [pageText, update, World.setView, World.record, Function.update_same,
        setImplicitHeight_log, setImplicitWidth_log, List.append_assoc]
      refine ⟨_, rfl, ?_⟩
      split_ifs <;> simp [Event.isPageTextChanged]

/-- The view and the log after an `updatePolish` pass over a valid document:
closed form of the success branch (main.cpp:207-215). -/
theorem updatePolish_valid [DecidableEq R] [Div R] (lib : QPdfium H P I R)
    (w : World H I R) (v : ViewId) (d : DocId)
    (hd : (w.views v).m_document = some d) (hv : lib.isValid (w.docs d).m_pdf = true) :
    (updatePolish lib w v).views v =
      { w.views v with
        implicitWidth := lib.width (lib.page (w.docs d).m_pdf (w.views v).m_pageNumber)
        implicitHeight := lib.height (lib.page (w.docs d).m_pdf (w.views v).m_pageNumber)
        width := if (w.views v).widthValid = true then (w.views v).width
          else lib.width (lib.page (w.docs d).m_pdf (w.views v).m_pageNumber)
        height := if (w.views v).heightValid = true then (w.views v).height
          else lib.height (lib.page (w.docs d).m_pdf (w.views v).m_pageNumber)
        m_image := lib.image (lib.page (w.docs d).m_pdf (w.views v).m_pageNumber)
          ((if (w.views v).widthValid = true then (w.views v).width
              else lib.width (lib.page (w.docs d).m_pdf (w.views v).m_pageNumber)) /
            lib.width (lib.page (w.docs d).m_pdf (w.views v).m_pageNumber))
        m_pageText := lib.text (lib.page (w.docs d).m_pdf (w.views v).m_pageNumber)
        polishScheduled := ((w.views v).polishScheduled ||
            !decide ((w.views v).width =
                lib.width (lib.page (w.docs d).m_pdf (w.views v).m_pageNumber) ∨
              (w.views v).widthValid = true)) ||
            !decide ((w.views v).height =
                lib.height (lib.page (w.docs d).m_pdf (w.views v).m_pageNumber) ∨
              (w.views v).heightValid = true)
        updateRequested := true } ∧
    (updatePolish lib w v).log =
      w.log ++ [Event.page d (w.views v).m_pageNumber]
        ++ (if (w.views v).width =
                lib.width (lib.page (w.docs d).m_pdf (w.views v).m_pageNumber) ∨
              (w.views v).widthValid = true then [] else [Event.widthChanged v])
        ++ (if (w.views v).height =
                lib.height (lib.page (w.docs d).m_pdf (w.views v).m_pageNumber) ∨
              (w.views v).heightValid = true then [] else [Event.heightChanged v])
        ++ [Event.pageTextChanged v
              (lib.text (lib.page (w.docs d).m_pdf (w.views v).m_pageNumber))] := by
  have hv' : ¬ isValid lib w d = false := by simp [isValid, hv]
  unfold updatePolish
  rw [hd]
  dsimp only
  rw [if_neg hv']
  simp only [update, World.setView, World.record, Function.update_same,
    setImplicitHeight_view, setImplicitWidth_view, setImplicitHeight_log,
    setImplicitWidth_log, List.append_assoc]
  exact ⟨trivial, trivial⟩

/-- C2 (amended): over a set and valid document, one `updatePolish` pass asks
the library for the current page once, sets the implicit width and height to
the page's, sets `pageText()` to the page's text, and caches the page's image
rendered at the item width divided by the page width, where the item width is
read after the implicit size has been set: it is the width held before the
pass when the item has an explicit width, and the page width otherwise. -/
theorem updatePolish_renders_current_page [DecidableEq R] [Div R]
    (lib : QPdfium H P I R) (w : World H I R) (v : ViewId) (d : DocId)
    (hd : document w v = some d) (hv : isValid lib w d = true) :
    (∃ es, (updatePolish lib w v).log = w.log ++ Event.page d (pageNumber w v) :: es ∧
      ∀ d' n', Event.page d' n' ∉ es) ∧
    ((updatePolish lib w v).views v).implicitWidth =
      lib.width (lib.page (w.docs d).m_pdf (pageNumber w v)) ∧
    ((updatePolish lib w v).views v).implicitHeight =
      lib.height (lib.page (w.docs d).m_pdf (pageNumber w v)) ∧
    ((updatePolish lib w v).views v).m_image =
      lib.image (lib.page (w.docs d).m_pdf (pageNumber w v))
        ((if (w.views v).widthValid = true then (w.views v).width
            else lib.width (lib.page (w.docs d).m_pdf (pageNumber w v))) /
          lib.width (lib.page (w.docs d).m_pdf (pageNumber w v))) ∧
    pageText (updatePolish lib w v) v =
      lib.text (lib.page (w.docs d).m_pdf (pageNumber w v)) := by
  obtain ⟨hview, hlog⟩ := updatePolish_valid lib w v d hd hv
  refine ⟨⟨(if (w.views v).width =
                lib.width (lib.page (w.docs d).m_pdf (w.views v).m_pageNumber) ∨
              (w.views v).widthValid = true then [] else [Event.widthChanged v])
        ++ ((if (w.views v).height =
                lib.height (lib.page (w.docs d).m_pdf (w.views v).m_pageNumber) ∨
              (w.views v).heightValid = true then [] else [Event.heightChanged v])
        ++ [Event.pageTextChanged v
              (lib.text (lib.page (w.docs d).m_pdf (w.views v).m_pageNumber))]), ?_, ?_⟩,
    ?_, ?_, ?_, ?_⟩
  · rw [hlog]
    simp only [List.append_assoc, List.singleton_append, pageNumber]
    rfl
  · intro d' n'
    split_ifs <;> simp
  · rw [hview]; rfl
  · rw [hview]; rfl
  · rw [hview]; rfl
  · rw [pageText, hview]; rfl

/-- Witness for C2: view 0 of `demoAttached` gets page 0 of `a.pdf` at scale 1. -/
theorem updatePolish_renders_current_page_witness :
    document demoAttached 0 = some 0 ∧ isValid demo demoAttached 0 = true ∧
    pageText (updatePolish demo demoAttached 0) 0 = "text of a.pdf" ∧
    ((updatePolish demo demoAttached 0).views 0).implicitWidth = 100 :=
  ⟨by decide, by decide,
    (updatePolish_renders_current_page demo demoAttached 0 0 (by decide) (by decide)).2.2.2.2.trans
      (by decide),
    (updatePolish_renders_current_page demo demoAttached 0 0 (by decide) (by decide)).2.1.trans
      (by decide)⟩

/-- C2 as stated fails: view 0 of `demoAttached` has width 0 and no explicit
width, the page is 100 wide; the pass renders at scale 100 / 100, not at
0 / 100. -/
theorem updatePolish_scale_counterexample :
    document demoAttached 0 = some 0 ∧ isValid demo demoAttached 0 = true ∧
    ((updatePolish demo demoAttached 0).views 0).m_image ≠
      demo.image (demo.page (demoAttached.docs 0).m_pdf (pageNumber demoAttached 0))
        ((demoAttached.views 0).width /
          demo.width (demo.page (demoAttached.docs 0).m_pdf (pageNumber demoAttached 0))) := by
  refine ⟨by decide, by decide, ?_⟩
  have hpage : demo.page (demoAttached.docs 0).m_pdf (demoAttached.views 0).m_pageNumber
      = some ("a.pdf", 0) := by decide
  have hvalid : (demoAttached.views 0).widthValid = false := by decide
  have hwidth : (demoAttached.views 0).width = 0 := by decide
  rw [(updatePolish_valid demo demoAttached 0 0 (by decide) (by decide)).1]
  simp only [pageNumber, hpage, hvalid, hwidth]
  simp [demo]

end Polish

/-! ## Subscriptions of a view to its document -/

section Subscriptions

variable {H P I R : Type}

theorem count_filter_ne (a c : Connection) (l : List Connection) :
    (l.filter (fun c' => decide (c' ≠ c))).count a = if a = c then 0 else l.count a := by
  by_cases ha : a = c
  · subst ha
    rw [if_pos rfl]
    apply List.count_eq_zero_of_not_mem
    simp [List.mem_filter]
  · rw [if_neg ha]
    apply List.count_filter
    simpa using ha

theorem receivers_count (w : World H I R) (d : DocId) (k : DocSignal) (v : ViewId) :
    (receivers w d k).count v = connectionCount w d k v := by
  unfold receivers connectionCount
  induction w.conns with
  | nil => simp
  | cons c l ih =>
    obtain ⟨cd, ck, cv⟩ := c
    by_cases h1 : cd = d ∧ ck = k
    · have hf : List.filter (fun c => decide (c.sender = d ∧ c.signal = k)) (⟨cd, ck, cv⟩ :: l)
          = ⟨cd, ck, cv⟩ :: List.filter (fun c => decide (c.sender = d ∧ c.signal = k)) l := by
        apply List.filter_cons_of_pos
        simpa using h1
      rw [hf, List.map_cons, List.count_cons, List.count_cons, ih]
      obtain ⟨rfl, rfl⟩ := h1
      by_cases h2 : cv = v
      · simp [h2]
      · simp [h2]
    · have hf : List.filter (fun c => decide (c.sender = d ∧ c.signal = k)) (⟨cd, ck, cv⟩ :: l)
          = List.filter (fun c => decide (c.sender = d ∧ c.signal = k)) l := by
        apply List.filter_cons_of_neg
        simpa using h1
      rw [hf, List.count_cons, ih]
      have h3 : ¬ (cd = d ∧ ck = k ∧ cv = v) := fun e => h1 ⟨e.1, e.2.1⟩
      simp [h3]

theorem setDocument_changed (w : World H I R) (v : ViewId) (doc : Option DocId)
    (h : doc ≠ document w v) :
    (setDocument w v doc).conns =
      keptConnections v w.conns (document w v) ++ madeConnections v doc ∧
    (setDocument w v doc).views =
      Function.update w.views v
        { w.views v with m_document := doc, polishScheduled := true } ∧
    (setDocument w v doc).docs = w.docs ∧
    (setDocument w v doc).log = w.log := by
  have h1 : ¬ doc = (w.views v).m_document := h
  unfold setDocument
  rw [if_neg h1]
  unfold document
  clear h h1
  cases (w.views v).m_document <;> cases doc <;>
    simp [polish, World.setView, connect, disconnect, keptConnections, madeConnections]

theorem count_madeConnections (v u : ViewId) (doc : Option DocId) (d : DocId) (k : DocSignal)
    (hk : k ≠ DocSignal.pageCountChanged) :
    (madeConnections v doc).count ⟨d, k, u⟩ = if u = v ∧ doc = some d then 1 else 0 := by
  cases doc with
  | none => simp [madeConnections]
  | some cur =>
    by_cases hu : u = v
    · by_cases hd : cur = d
      · subst hd
        subst hu
        cases k <;> simp [madeConnections, List.count_cons] at hk ⊢
      · have hd' : ¬ d = cur := fun e => hd e.symm
        cases k <;> simp [madeConnections, List.count_cons, hu, hd, hd'] at hk ⊢
    · have hu' : ¬ v = u := fun e => hu e.symm
      simp [madeConnections, List.count_cons, hu, hu']

theorem count_keptConnections (v u : ViewId) (conns : List Connection) (old : Option DocId)
    (d : DocId) (k : DocSignal) (hk : k ≠ DocSignal.pageCountChanged) :
    (keptConnections v conns old).count ⟨d, k, u⟩ =
      if u = v ∧ old = some d then 0 else conns.count ⟨d, k, u⟩ := by
  cases old with
  | none => simp [keptConnections]
  | some o =>
    simp only [keptConnections, count_filter_ne, Connection.mk.injEq, Option.some.injEq]
    by_cases hu : u = v
    · by_cases hd : o = d
      · subst hd
        subst hu
        cases k <;> simp at hk ⊢
      · have hd' : ¬ d = o := fun e => hd e.symm
        simp [hu, hd, hd']
    · simp [hu]

/-- `setDocument` keeps the subscription invariant. -/
theorem setDocument_subscribed (w : World H I R) (hw : Subscribed w) (v : ViewId)
    (doc : Option DocId) : Subscribed (setDocument w v doc) := by
  by_cases h : doc = document w v
  · have : setDocument w v doc = w := by
      unfold setDocument
      exact if_pos h
    rw [this]
    exact hw
  · obtain ⟨hconns, hviews, -, -⟩ := setDocument_changed w v doc h
    intro u d k hk
    have hwu := hw u d k hk
    unfold connectionCount at hwu ⊢
    rw [hconns, List.count_append, count_madeConnections v u doc d k hk,
      count_keptConnections v u w.conns (document w v) d k hk, hwu]
    unfold document at h ⊢
    rw [hviews]
    by_cases huv : u = v
    · subst huv
      simp only [Function.update_same, true_and]
      by_cases h1 : (w.views u).m_document = some d
      · have h2 : ¬ doc = some d := fun e => h (e.trans h1.symm)
        simp [h1, h2]
      · simp [h1]
    · rw [Function.update_noteq huv]
      simp [huv]

/-- A sequence of `setDocument` calls keeps the subscription invariant. -/
theorem setDocuments_subscribed (calls : List (ViewId × Option DocId)) :
    ∀ w : World H I R, Subscribed w → Subscribed (setDocuments w calls) := by
  induction calls with
  | nil => intro w hw; exact hw
  | cons c rest ih =>
    intro w hw
    exact ih _ (setDocument_subscribed w hw c.1 c.2)

/-- C9: from a world in which every view is subscribed to its current document
and to no other, after any sequence of `setDocument` calls, for `sourceChanged` and
for `isValidChanged` alike, any view `v` and any document `d`: there is exactly
one connection from `d` to `v` when `d` is the current document of `v` and none
otherwise; an emission by `d` therefore runs the `polish` slot of `v` once in
the first case and not at all in the second, and sets the needs-polish flag of `v`
exactly in the first case. -/
theorem setDocuments_subscription (w : World H I R) (hw : Subscribed w)
    (calls : List (ViewId × Option DocId)) (v : ViewId) (d : DocId) (k : DocSignal)
    (hk : k = DocSignal.sourceChanged ∨ k = DocSignal.isValidChanged) (e : Event) :
    connectionCount (setDocuments w calls) d k v =
      (if document (setDocuments w calls) v = some d then 1 else 0) ∧
    (receivers (setDocuments w calls) d k).count v =
      (if document (setDocuments w calls) v = some d then 1 else 0) ∧
    ((emitDoc (setDocuments w calls) d k e).views v).polishScheduled =
      (((setDocuments w calls).views v).polishScheduled ||
        decide (document (setDocuments w calls) v = some d)) := by
  have hk' : k ≠ DocSignal.pageCountChanged := by
    rcases hk with hk | hk <;> simp [hk]
  have hsub := setDocuments_subscribed calls w hw v d k hk'
  have hrec := receivers_count (setDocuments w calls) d k v
  refine ⟨hsub, hrec.trans hsub, ?_⟩
  rw [emitDoc_views]
  by_cases hdoc : document (setDocuments w calls) v = some d
  · have hmem : v ∈ receivers (setDocuments w calls) d k := by
      apply List.count_pos_iff.mp
      rw [hrec, hsub, if_pos hdoc]
      exact Nat.one_pos
    simp [hmem, hdoc]
  · have hmem : v ∉ receivers (setDocuments w calls) d k := by
      intro hm
      have := List.count_pos_iff.mpr hm
      rw [hrec, hsub, if_neg hdoc] at this
      exact absurd this (Nat.lt_irrefl 0)
    simp [hmem, hdoc]

/-- Witness for C9: view 0 is moved from document 0 to document 1, detached
and attached to document 1 again, while view 1 is attached to document 1; an
emission of `sourceChanged` by document 1 polishes view 0 once. -/
theorem setDocuments_subscription_witness :
    Subscribed demoWorld ∧
    connectionCount
      (setDocuments demoWorld [(0, some 0), (0, some 1), (1, some 1), (0, none), (0, some 1)])
      1 DocSignal.sourceChanged 0 = 1 ∧
    connectionCount
      (setDocuments demoWorld [(0, some 0), (0, some 1), (1, some 1), (0, none), (0, some 1)])
      0 DocSignal.sourceChanged 0 = 0 :=
  ⟨fun _ _ _ _ => rfl,
    (setDocuments_subscription demoWorld (fun _ _ _ _ => rfl)
      [(0, some 0), (0, some 1), (1, some 1), (0, none), (0, some 1)] 0 1
      DocSignal.sourceChanged (Or.inl rfl) (Event.sourceChanged 1 "a.pdf")).1.trans (by decide),
    (setDocuments_subscription demoWorld (fun _ _ _ _ => rfl)
      [(0, some 0), (0, some 1), (1, some 1), (0, none), (0, some 1)] 0 0
      DocSignal.sourceChanged (Or.inl rfl) (Event.sourceChanged 0 "a.pdf")).1.trans (by decide)⟩

end Subscriptions

/-! ## Property changes do not render -/

section Deferred

variable {H P I R : Type}

theorem emitDoc_view_or (w : World H I R) (d : DocId) (k : DocSignal) (e : Event) (v : ViewId) :
    (emitDoc w d k e).views v =
      { w.views v with
        polishScheduled := (w.views v).polishScheduled || decide (v ∈ receivers w d k) } := by
  rw [emitDoc_views]
  by_cases h : v ∈ receivers w d k
  · simp [h]
  · simp [h]

theorem receivers_congr (w1 w2 : World H I R) (h : w1.conns = w2.conns) (d : DocId)
    (k : DocSignal) : receivers w1 d k = receivers w2 d k := by
  unfold receivers
  rw [h]

/-- The world after a `setSource` call that changes the source: the stored
path and the load, then the emissions, as a list that starts with
`sourceChanged` and holds no page request and no `pageTextChanged`. -/
theorem setSource_changed (lib : QPdfium H P I R) (w : World H I R) (d : DocId) (s : String)
    (h : s ≠ source w d) :
    ∃ es : List (DocSignal × Event),
      setSource lib w d s =
        (((DocSignal.sourceChanged, Event.sourceChanged d s) :: es).foldl
          (fun w' p => emitDoc w' d p.1 p.2)
          { w with
            docs := Function.update w.docs d
              { m_source := s, m_pdf := lib.loadFile (w.docs d).m_pdf s }
            log := w.log ++ [Event.loadFile d s] }) ∧
      ∀ p ∈ es, p.2.isRender = false := by
  have h1 : ¬ s = (w.docs d).m_source := h
  by_cases hv : lib.isValid (lib.loadFile (w.docs d).m_pdf s) = lib.isValid (w.docs d).m_pdf
  · by_cases hc : lib.pageCount (lib.loadFile (w.docs d).m_pdf s) = lib.pageCount (w.docs d).m_pdf
    · refine ⟨[], ?_, by simp⟩
      simp [setSource, h1, isValid, pageCount, emitDoc_docs, World.setDoc, World.record, hv, hc]
    · refine ⟨[(DocSignal.pageCountChanged,
        Event.pageCountChanged d (lib.pageCount (lib.loadFile (w.docs d).m_pdf s)))], ?_,
        by simp [Event.isRender]⟩
      simp [setSource, h1, isValid, pageCount, emitDoc_docs, World.setDoc, World.record, hv, hc]
  · by_cases hc : lib.pageCount (lib.loadFile (w.docs d).m_pdf s) = lib.pageCount (w.docs d).m_pdf
    · refine ⟨[(DocSignal.isValidChanged,
        Event.isValidChanged d (lib.isValid (lib.loadFile (w.docs d).m_pdf s)))], ?_,
        by simp [Event.isRender]⟩
      simp [setSource, h1, isValid, pageCount, emitDoc_docs, World.setDoc, World.record, hv, hc]
    · refine ⟨[(DocSignal.isValidChanged,
          Event.isValidChanged d (lib.isValid (lib.loadFile (w.docs d).m_pdf s))),
        (DocSignal.pageCountChanged,
          Event.pageCountChanged d (lib.pageCount (lib.loadFile (w.docs d).m_pdf s)))], ?_,
        by simp [Event.isRender]⟩
      simp [setSource, h1, isValid, pageCount, emitDoc_docs, World.setDoc, World.record, hv, hc]

/-- A run of emissions by document `d` leaves the connections alone, adds only
the emitted events to the log, and changes nothing of a view but its
needs-polish flag, which is never cleared. -/
theorem foldl_emitDoc (d : DocId) (es : List (DocSignal × Event)) :
    ∀ (w : World H I R) (v : ViewId),
      (es.foldl (fun w' p => emitDoc w' d p.1 p.2) w).conns = w.conns ∧
      (es.foldl (fun w' p => emitDoc w' d p.1 p.2) w).log = w.log ++ es.map Prod.snd ∧
      ∃ f : Bool, (es.foldl (fun w' p => emitDoc w' d p.1 p.2) w).views v =
        { w.views v with polishScheduled := (w.views v).polishScheduled || f } := by
  induction es with
  | nil =>
    intro w v
    exact ⟨rfl, by simp, false, by simp⟩
  | cons p rest ih =>
    intro w v
    obtain ⟨h1, h2, f, h3⟩ := ih (emitDoc w d p.1 p.2) v
    rw [List.foldl_cons]
    refine ⟨by rw [h1, emitDoc_conns], by rw [h2, emitDoc_log]; simp, ?_⟩
    refine ⟨decide (v ∈ receivers w d p.1) || f, ?_⟩
    rw [h3, emitDoc_view_or]
    simp [Bool.or_assoc]

theorem setSource_conns (lib : QPdfium H P I R) (w : World H I R) (d : DocId) (s : String) :
    (setSource lib w d s).conns = w.conns := by
  by_cases h : s = source w d
  · have : setSource lib w d s = w := if_pos h
    rw [this]
  · obtain ⟨es, heq, -⟩ := setSource_changed lib w d s h
    rw [heq, (foldl_emitDoc d _ _ 0).1]

theorem setSource_render (lib : QPdfium H P I R) (w : World H I R) (d : DocId) (s : String) :
    (setSource lib w d s).log.filter Event.isRender = w.log.filter Event.isRender := by
  by_cases h : s = source w d
  · have : setSource lib w d s = w := if_pos h
    rw [this]
  · obtain ⟨es, heq, hes⟩ := setSource_changed lib w d s h
    rw [heq, (foldl_emitDoc d _ _ 0).2.1]
    simp only [List.filter_append, List.map_cons, List.filter_cons, List.filter_nil,
      Event.isRender, Bool.false_eq_true, if_false, List.append_nil]
    have : (es.map Prod.snd).filter Event.isRender = [] := by
      rw [List.filter_eq_nil_iff]
      intro e he
      obtain ⟨p, hp, rfl⟩ := List.mem_map.mp he
      simp [hes p hp]
    rw [this, List.append_nil]

/-- `setSource` changes nothing of any view but its needs-polish flag, which it
sets (at least) in every view connected to `sourceChanged` of the document
when the source changes, and leaves alone when the source is the same. -/
theorem setSource_view (lib : QPdfium H P I R) (w : World H I R) (d : DocId) (s : String)
    (v : ViewId) :
    ∃ f : Bool, (setSource lib w d s).views v =
        { w.views v with polishScheduled := (w.views v).polishScheduled || f } ∧
      (s ≠ source w d → v ∈ receivers w d DocSignal.sourceChanged → f = true) ∧
      (s = source w d → f = false) := by
  by_cases h : s = source w d
  · refine ⟨false, ?_, fun h' => absurd h h', fun _ => rfl⟩
    have : setSource lib w d s = w := if_pos h
    rw [this]
    simp
  · obtain ⟨es, heq, -⟩ := setSource_changed lib w d s h
    rw [heq, List.foldl_cons]
    obtain ⟨-, -, f, hf⟩ := foldl_emitDoc d es
      (emitDoc { w with
            docs := Function.update w.docs d
              { m_source := s, m_pdf := lib.loadFile (w.docs d).m_pdf s }
            log := w.log ++ [Event.loadFile d s] } d DocSignal.sourceChanged
        (Event.sourceChanged d s)) v
    refine ⟨decide (v ∈ receivers w d DocSignal.sourceChanged) || f, ?_,
      fun _ hm => by simp [hm], fun h' => absurd h' h⟩
    rw [hf, emitDoc_view_or]
    simp only [Bool.or_assoc]
    rfl

theorem setImplicitWidth_conns [DecidableEq R] (w : World H I R) (v : ViewId) (x : R) :
    (setImplicitWidth w v x).conns = w.conns := by
  unfold setImplicitWidth
  dsimp only
  split_ifs <;> rfl

theorem setImplicitHeight_conns [DecidableEq R] (w : World H I R) (v : ViewId) (x : R) :
    (setImplicitHeight w v x).conns = w.conns := by
  unfold setImplicitHeight
  dsimp only
  split_ifs <;> rfl

theorem setImplicitWidth_other [DecidableEq R] (w : World H I R) (v : ViewId) (x : R)
    (u : ViewId) (h : u ≠ v) : (setImplicitWidth w v x).views u = w.views u := by
  unfold setImplicitWidth
  dsimp only
  split_ifs <;> simp [polish, World.setView, World.record, Function.update_noteq h]

theorem setImplicitHeight_other [DecidableEq R] (w : World H I R) (v : ViewId) (x : R)
    (u : ViewId) (h : u ≠ v) : (setImplicitHeight w v x).views u = w.views u := by
  unfold setImplicitHeight
  dsimp only
  split_ifs <;> simp [polish, World.setView, World.record, Function.update_noteq h]

/-- `updatePolish` makes and removes no connection and changes the document of
no view, so it keeps the subscription invariant. -/
theorem updatePolish_subscribed [DecidableEq R] [Div R] (lib : QPdfium H P I R)
    (w : World H I R) (hw : Subscribed w) (v : ViewId) : Subscribed (updatePolish lib w v) := by
  have hfail : Subscribed (unableToLoad w v) := by
    intro u d k hk
    have hwu := hw u d k hk
    unfold connectionCount document at hwu ⊢
    by_cases huv : u = v
    · subst huv
      simpa [unableToLoad, update, World.setView, World.record] using hwu
    · simpa [unableToLoad, update, World.setView, World.record, Function.update_noteq huv]
        using hwu
  unfold updatePolish
  cases hdoc : (w.views v).m_document with
  | none => exact hfail
  | some d =>
    dsimp only
    split_ifs with hv
    · exact hfail
    · intro u d' k hk
      have hwu := hw u d' k hk
      unfold connectionCount document at hwu ⊢
      by_cases huv : u = v
      · subst huv
        simpa [update, World.setView, World.record, setImplicitHeight_conns,
          setImplicitWidth_conns, setImplicitHeight_view, setImplicitWidth_view] using hwu
      · simpa [update, World.setView, World.record, setImplicitHeight_conns,
          setImplicitWidth_conns, Function.update_noteq huv, setImplicitHeight_other _ _ _ _ huv,
          setImplicitWidth_other _ _ _ _ huv] using hwu

/-- A new world satisfies the subscription invariant. -/
theorem new_subscribed [Zero R] (lib : QPdfium H P I R) :
    Subscribed (World.new lib : World H I R) :=
  fun _ _ _ _ => rfl

/-- `setSource` keeps the subscription invariant. -/
theorem setSource_subscribed (lib : QPdfium H P I R) (w : World H I R) (hw : Subscribed w)
    (d : DocId) (s : String) : Subscribed (setSource lib w d s) := by
  intro u d' k hk
  have hwu := hw u d' k hk
  obtain ⟨f, hf, -, -⟩ := setSource_view lib w d s u
  unfold connectionCount document at hwu ⊢
  rw [setSource_conns, hf]
  exact hwu

theorem setPageNumber_conns (w : World H I R) (v : ViewId) (n : Int) :
    (setPageNumber w v n).conns = w.conns := by
  by_cases h : n = (w.views v).m_pageNumber
  · simp [setPageNumber, h]
  · simp [setPageNumber, h, polish, World.setView, World.record]

theorem setPageNumber_document (w : World H I R) (v : ViewId) (n : Int) (u : ViewId) :
    ((setPageNumber w v n).views u).m_document = (w.views u).m_document := by
  by_cases h : n = (w.views v).m_pageNumber
  · simp [setPageNumber, h]
  · by_cases huv : u = v
    · subst huv
      simp [setPageNumber, h, polish, World.setView, World.record]
    · simp [setPageNumber, h, polish, World.setView, World.record, Function.update_noteq huv]

/-- `setPageNumber` keeps the subscription invariant. -/
theorem setPageNumber_subscribed (w : World H I R) (hw : Subscribed w) (v : ViewId) (n : Int) :
    Subscribed (setPageNumber w v n) := by
  intro u d k hk
  have hwu := hw u d k hk
  unfold connectionCount document at hwu ⊢
  rw [setPageNumber_conns, setPageNumber_document]
  exact hwu

/-- One call from outside: the subscription invariant is kept, the cached
bitmap and the text stay, nothing is rendered, and the needs-polish flag is set
exactly when the call is given a value other than the one held. -/
theorem call_defers (lib : QPdfium H P I R) (w : World H I R) (hw : Subscribed w)
    (v : ViewId) (c : Call) :
    Subscribed (c.run lib w v) ∧
    ((c.run lib w v).views v).m_image = (w.views v).m_image ∧
    ((c.run lib w v).views v).m_pageText = (w.views v).m_pageText ∧
    (c.run lib w v).log.filter Event.isRender = w.log.filter Event.isRender ∧
    ((c.run lib w v).views v).polishScheduled =
      ((w.views v).polishScheduled || c.changes w v) := by
  cases c with
  | setPageNumber n =>
    refine ⟨setPageNumber_subscribed w hw v n, ?_⟩
    by_cases h : n = (w.views v).m_pageNumber
    · simp [Call.run, Call.changes, setPageNumber, pageNumber, h]
    · simp [Call.run, Call.changes, setPageNumber, pageNumber, h, polish, World.setView,
        World.record, Event.isRender]
  | setDocument doc =>
    refine ⟨setDocument_subscribed w hw v doc, ?_⟩
    by_cases h : doc = document w v
    · subst h
      have : setDocument w v (document w v) = w := if_pos rfl
      simp [Call.run, Call.changes, this]
    · obtain ⟨-, hviews, -, hlog⟩ := setDocument_changed w v doc h
      simp [Call.run, Call.changes, hviews, hlog, h]
  | setSource s =>
    cases hdoc : document w v with
    | none => simp [Call.run, Call.changes, hdoc, hw]
    | some d =>
      simp only [Call.run, Call.changes, hdoc]
      obtain ⟨f, hf, hf1, hf2⟩ := setSource_view lib w d s v
      refine ⟨setSource_subscribed lib w hw d s, by rw [hf], by rw [hf],
        setSource_render lib w d s, ?_⟩
      rw [hf]
      by_cases h : s = source w d
      · simp [hf2 h, h]
      · have hmem : v ∈ receivers w d DocSignal.sourceChanged := by
          apply List.count_pos_iff.mp
          rw [receivers_count, hw v d DocSignal.sourceChanged (by simp), if_pos hdoc]
          exact Nat.one_pos
        simp [hf1 h hmem, h]

theorem unableToLoad_view (w : World H I R) (v : ViewId) :
    (unableToLoad w v).views v =
      { w.views v with m_image := none, m_pageText := "", updateRequested := true } := by
  simp [unableToLoad, update, World.setView, World.record]

theorem updatePolish_docs [DecidableEq R] [Div R] (lib : QPdfium H P I R) (w : World H I R)
    (v : ViewId) : (updatePolish lib w v).docs = w.docs := by
  unfold updatePolish
  cases (w.views v).m_document with
  | none => simp [unableToLoad, update, World.setView, World.record]
  | some d =>
    dsimp only
    split_ifs
    · simp [unableToLoad, update, World.setView, World.record]
    · simp [update, World.setView, World.record, setImplicitHeight_docs, setImplicitWidth_docs]

/-- Without a valid document `updatePolish` takes the failure branch. -/
theorem updatePolish_invalid [DecidableEq R] [Div R] (lib : QPdfium H P I R)
    (w : World H I R) (v : ViewId)
    (h : ∀ d, (w.views v).m_document = some d → lib.isValid (w.docs d).m_pdf = false) :
    updatePolish lib w v = unableToLoad w v := by
  unfold updatePolish
  cases hd : (w.views v).m_document with
  | none => rfl
  | some d =>
    have := h d hd
    simp [isValid, this]

theorem resizes_invalid [DecidableEq R] [Div R] (lib : QPdfium H P I R)
    (w : World H I R) (v : ViewId)
    (h : ∀ d, (w.views v).m_document = some d → lib.isValid (w.docs d).m_pdf = false) :
    resizes lib w v = false := by
  simp [resizes, updatePolish_invalid lib w v h, unableToLoad_view]

theorem resizes_valid [DecidableEq R] [Div R] (lib : QPdfium H P I R)
    (w : World H I R) (v : ViewId) (d : DocId)
    (hd : (w.views v).m_document = some d) (hv : lib.isValid (w.docs d).m_pdf = true) :
    resizes lib w v =
      (!decide ((w.views v).width =
            lib.width (lib.page (w.docs d).m_pdf (w.views v).m_pageNumber) ∨
          (w.views v).widthValid = true) ||
        !decide ((w.views v).height =
            lib.height (lib.page (w.docs d).m_pdf (w.views v).m_pageNumber) ∨
          (w.views v).heightValid = true)) := by
  unfold resizes
  rw [(updatePolish_valid lib w v d hd hv).1]
  dsimp only
  cases hwv : (w.views v).widthValid <;> cases hhv : (w.views v).heightValid <;>
    simp [eq_comm]

/-- The pending flag after an `updatePolish` run: set before, or set by the
run because it changed the size of the item. -/
theorem updatePolish_flag [DecidableEq R] [Div R] (lib : QPdfium H P I R)
    (w : World H I R) (v : ViewId) :
    ((updatePolish lib w v).views v).polishScheduled =
      ((w.views v).polishScheduled || resizes lib w v) := by
  by_cases h : ∀ d, (w.views v).m_document = some d → lib.isValid (w.docs d).m_pdf = false
  · rw [resizes_invalid lib w v h, updatePolish_invalid lib w v h, unableToLoad_view]
    simp
  · push_neg at h
    obtain ⟨d, hd, hv⟩ := h
    have hv' : lib.isValid (w.docs d).m_pdf = true := by simpa using hv
    rw [resizes_valid lib w v d hd hv', (updatePolish_valid lib w v d hd hv').1]
    simp [Bool.or_assoc]

theorem resizes_clearPolish [DecidableEq R] [Div R] (lib : QPdfium H P I R)
    (w : World H I R) (v : ViewId) : resizes lib (clearPolish w v) v = resizes lib w v := by
  by_cases h : ∀ d, (w.views v).m_document = some d → lib.isValid (w.docs d).m_pdf = false
  · rw [resizes_invalid lib w v h, resizes_invalid]
    simpa [clearPolish, World.setView] using h
  · push_neg at h
    obtain ⟨d, hd, hv⟩ := h
    have hv' : lib.isValid (w.docs d).m_pdf = true := by simpa using hv
    rw [resizes_valid lib w v d hd hv',
      resizes_valid lib (clearPolish w v) v d (by simpa [clearPolish, World.setView] using hd)
        (by simpa [clearPolish, World.setView] using hv')]
    simp [clearPolish, World.setView]

/-- A second run finds the size the first run left: it does not resize. -/
theorem resizes_updatePolish [DecidableEq R] [Div R] (lib : QPdfium H P I R)
    (w : World H I R) (v : ViewId) : resizes lib (updatePolish lib w v) v = false := by
  by_cases h : ∀ d, (w.views v).m_document = some d → lib.isValid (w.docs d).m_pdf = false
  · apply resizes_invalid
    rw [updatePolish_docs, updatePolish_invalid lib w v h, unableToLoad_view]
    exact h
  · push_neg at h
    obtain ⟨d, hd, hv⟩ := h
    have hv' : lib.isValid (w.docs d).m_pdf = true := by simpa using hv
    have hview := (updatePolish_valid lib w v d hd hv').1
    rw [resizes_valid lib (updatePolish lib w v) v d (by rw [hview]; exact hd)
      (by rw [updatePolish_docs]; exact hv')]
    rw [updatePolish_docs, hview]
    dsimp only
    cases hwv : (w.views v).widthValid <;> cases hhv : (w.views v).heightValid <;> simp

/-- With no polish pending the pass runs nothing. -/
theorem polishItems_idle [DecidableEq R] [Div R] (lib : QPdfium H P I R) (fuel : Nat)
    (w : World H I R) (v : ViewId) (h : (w.views v).polishScheduled = false) :
    polishItems lib fuel w v = (w, 0) := by
  cases fuel with
  | zero => rfl
  | succ n => simp [polishItems, h]

/-- The polish pass on view `v`, given room for two runs: nothing when no
polish is pending; otherwise one run, and a second one exactly when the first
changed the size of the item; no polish is pending afterwards. -/
theorem polishItems_runs [DecidableEq R] [Div R] (lib : QPdfium H P I R) (fuel : Nat)
    (w : World H I R) (v : ViewId) :
    (polishItems lib (fuel + 2) w v).2 =
      (if (w.views v).polishScheduled = true then (if resizes lib w v = true then 2 else 1)
        else 0) ∧
    ((polishItems lib (fuel + 2) w v).1.views v).polishScheduled = false := by
  cases hflag : (w.views v).polishScheduled with
  | false => simp [polishItems_idle lib (fuel + 2) w v hflag, hflag]
  | true =>
    have h1 : ((updatePolish lib (clearPolish w v) v).views v).polishScheduled
        = resizes lib w v := by
      rw [updatePolish_flag, resizes_clearPolish]
      simp [clearPolish, World.setView]
    rw [polishItems]
    simp only [hflag, if_true]
    cases hres : resizes lib w v with
    | false =>
      rw [hres] at h1
      rw [polishItems_idle lib (fuel + 1) _ v h1]
      simp [h1]
    | true =>
      rw [hres] at h1
      have h2 : ((updatePolish lib (clearPolish (updatePolish lib (clearPolish w v) v) v)
          v).views v).polishScheduled = false := by
        rw [updatePolish_flag, resizes_clearPolish, resizes_updatePolish]
        simp [clearPolish, World.setView]
      rw [polishItems]
      simp only [h1, if_true]
      rw [polishItems_idle lib fuel _ v h2]
      simp [h2]

theorem clearPolish_subscribed (w : World H I R) (hw : Subscribed w) (v : ViewId) :
    Subscribed (clearPolish w v) := by
  intro u d k hk
  have hwu := hw u d k hk
  unfold connectionCount document at hwu ⊢
  by_cases huv : u = v
  · subst huv
    simpa [clearPolish, World.setView] using hwu
  · simpa [clearPolish, World.setView, Function.update_noteq huv] using hwu

/-- The polish pass keeps the subscription invariant. -/
theorem polishItems_subscribed [DecidableEq R] [Div R] (lib : QPdfium H P I R) (fuel : Nat) :
    ∀ (w : World H I R) (v : ViewId), Subscribed w → Subscribed (polishItems lib fuel w v).1 := by
  induction fuel with
  | zero => intro w v hw; exact hw
  | succ n ih =>
    intro w v hw
    rw [polishItems]
    split_ifs
    · exact ih _ v (updatePolish_subscribed lib _ (clearPolish_subscribed w hw v) v)
    · exact hw

theorem setWidth_subscribed [DecidableEq R] (w : World H I R) (hw : Subscribed w)
    (v : ViewId) (x : R) : Subscribed (setWidth w v x) := by
  have hc : (setWidth w v x).conns = w.conns := by
    unfold setWidth
    dsimp only
    split_ifs <;> rfl
  have hd : ∀ u, ((setWidth w v x).views u).m_document = (w.views u).m_document := by
    intro u
    unfold setWidth
    dsimp only
    by_cases huv : u = v
    · subst huv
      split_ifs <;> simp [polish, World.setView, World.record]
    · split_ifs <;> simp [polish, World.setView, World.record, Function.update_noteq huv]
  intro u d k hk
  have hwu := hw u d k hk
  unfold connectionCount document at hwu ⊢
  rw [hc, hd]
  exact hwu

theorem setHeight_subscribed [DecidableEq R] (w : World H I R) (hw : Subscribed w)
    (v : ViewId) (x : R) : Subscribed (setHeight w v x) := by
  have hc : (setHeight w v x).conns = w.conns := by
    unfold setHeight
    dsimp only
    split_ifs <;> rfl
  have hd : ∀ u, ((setHeight w v x).views u).m_document = (w.views u).m_document := by
    intro u
    unfold setHeight
    dsimp only
    by_cases huv : u = v
    · subst huv
      split_ifs <;> simp [polish, World.setView, World.record]
    · split_ifs <;> simp [polish, World.setView, World.record, Function.update_noteq huv]
  intro u d k hk
  have hwu := hw u d k hk
  unfold connectionCount document at hwu ⊢
  rw [hc, hd]
  exact hwu

/-- C5 (amended): from a world in which every view is subscribed to its current
document, after any sequence of `setPageNumber`, `setDocument` and `setSource`
calls on a view and on its attached document: the cached bitmap and
`pageText()` are what they were, no page was requested from the library and
no `pageTextChanged` was emitted; the needs-polish flag is set when at least
one call was given a value other than the one held, and is as it was when
none was; and the following polish pass then runs `updatePolish` once for the
whole sequence, a second time exactly when that run itself changes the size
of the item (never for an item with explicit width and height), and not at
all when the flag is left clear; no polish is pending after the pass. -/
theorem runCalls_defers_rendering [DecidableEq R] [Div R] (lib : QPdfium H P I R)
    (w : World H I R) (hw : Subscribed w) (v : ViewId) (calls : List Call) (fuel : Nat) :
    ((runCalls lib w v calls).views v).m_image = (w.views v).m_image ∧
    pageText (runCalls lib w v calls) v = pageText w v ∧
    (runCalls lib w v calls).log.filter Event.isRender = w.log.filter Event.isRender ∧
    ((runCalls lib w v calls).views v).polishScheduled =
      ((w.views v).polishScheduled || anyChange lib w v calls) ∧
    (polishItems lib (fuel + 2) (runCalls lib w v calls) v).2 =
      (if ((w.views v).polishScheduled || anyChange lib w v calls) = true then
        (if resizes lib (runCalls lib w v calls) v = true then 2 else 1)
      else 0) ∧
    (((runCalls lib w v calls).views v).widthValid = true →
      ((runCalls lib w v calls).views v).heightValid = true →
      resizes lib (runCalls lib w v calls) v = false) ∧
    ((polishItems lib (fuel + 2) (runCalls lib w v calls) v).1.views v).polishScheduled
      = false := by
  have key : ((runCalls lib w v calls).views v).m_image = (w.views v).m_image ∧
      pageText (runCalls lib w v calls) v = pageText w v ∧
      (runCalls lib w v calls).log.filter Event.isRender = w.log.filter Event.isRender ∧
      ((runCalls lib w v calls).views v).polishScheduled =
        ((w.views v).polishScheduled || anyChange lib w v calls) := by
    induction calls generalizing w with
    | nil => simp [runCalls, anyChange]
    | cons c rest ih =>
      obtain ⟨hsub, himg, htxt, hlog, hflag⟩ := call_defers lib w hw v c
      obtain ⟨h1, h2, h3, h4⟩ := ih (c.run lib w v) hsub
      unfold pageText at h2 ⊢
      simp only [runCalls, anyChange]
      refine ⟨h1.trans himg, h2.trans htxt, h3.trans hlog, ?_⟩
      rw [h4, hflag, Bool.or_assoc]
  obtain ⟨k1, k2, k3, k4⟩ := key
  obtain ⟨r1, r2⟩ := polishItems_runs lib fuel (runCalls lib w v calls) v
  refine ⟨k1, k2, k3, k4, ?_, ?_, r2⟩
  · rw [r1, k4]
  · intro hwv hhv
    by_cases h : ∀ d, ((runCalls lib w v calls).views v).m_document = some d →
        lib.isValid ((runCalls lib w v calls).docs d).m_pdf = false
    · exact resizes_invalid lib _ v h
    · push_neg at h
      obtain ⟨d, hd, hv⟩ := h
      rw [resizes_valid lib _ v d hd (by simpa using hv)]
      simp [hwv, hhv]

/-- Witness for C5. View 0 of `demoIdle` holds a bitmap and has no polish
pending; its page number is changed three times: the bitmap stays, the flag is
set, and the polish pass runs `updatePolish` once. View 0 of `demoSized` has an
explicit size; its document is pointed at `b.pdf`, whose page has another
size: the run does not resize the item and the pass runs `updatePolish` once. -/
theorem runCalls_defers_rendering_witness :
    (Subscribed demoIdle ∧
      (demoIdle.views 0).polishScheduled = false ∧
      (demoIdle.views 0).m_image.isSome = true ∧
      ((runCalls demo demoIdle 0
          [Call.setPageNumber 1, Call.setPageNumber 0, Call.setPageNumber 1]).views
        0).m_image = (demoIdle.views 0).m_image ∧
      ((runCalls demo demoIdle 0
          [Call.setPageNumber 1, Call.setPageNumber 0, Call.setPageNumber 1]).views
        0).polishScheduled = true ∧
      (polishItems demo 2 (runCalls demo demoIdle 0
          [Call.setPageNumber 1, Call.setPageNumber 0, Call.setPageNumber 1]) 0).2 = 1) ∧
    (Subscribed demoSized ∧
      (demoSized.views 0).polishScheduled = false ∧
      ((runCalls demo demoSized 0 [Call.setSource "b.pdf"]).views 0).polishScheduled = true ∧
      resizes demo (runCalls demo demoSized 0 [Call.setSource "b.pdf"]) 0 = false ∧
      (polishItems demo 2 (runCalls demo demoSized 0 [Call.setSource "b.pdf"]) 0).2 = 1) :=
  ⟨⟨polishItems_subscribed demo 3 demoAttached 0
      (setDocument_subscribed _
        (setSource_subscribed demo demoWorld (fun _ _ _ _ => rfl) 0 "a.pdf") 0 (some 0)),
    by decide, by decide,
    (runCalls_defers_rendering demo demoIdle
      (polishItems_subscribed demo 3 demoAttached 0
        (setDocument_subscribed _
          (setSource_subscribed demo demoWorld (fun _ _ _ _ => rfl) 0 "a.pdf") 0 (some 0)))
      0 [Call.setPageNumber 1, Call.setPageNumber 0, Call.setPageNumber 1] 0).1,
    (runCalls_defers_rendering demo demoIdle
      (polishItems_subscribed demo 3 demoAttached 0
        (setDocument_subscribed _
          (setSource_subscribed demo demoWorld (fun _ _ _ _ => rfl) 0 "a.pdf") 0 (some 0)))
      0 [Call.setPageNumber 1, Call.setPageNumber 0, Call.setPageNumber 1] 0).2.2.2.1.trans
      (by decide),
    (runCalls_defers_rendering demo demoIdle
      (polishItems_subscribed demo 3 demoAttached 0
        (setDocument_subscribed _
          (setSource_subscribed demo demoWorld (fun _ _ _ _ => rfl) 0 "a.pdf") 0 (some 0)))
      0 [Call.setPageNumber 1, Call.setPageNumber 0, Call.setPageNumber 1] 0).2.2.2.2.1.trans
      (by decide)⟩,
   ⟨polishItems_subscribed demo 3 _ 0
      (setHeight_subscribed _ (setWidth_subscribed _
        (setDocument_subscribed _
          (setSource_subscribed demo demoWorld (fun _ _ _ _ => rfl) 0 "a.pdf") 0 (some 0))
        0 50) 0 80),
    by decide,
    (runCalls_defers_rendering demo demoSized
      (polishItems_subscribed demo 3 _ 0
        (setHeight_subscribed _ (setWidth_subscribed _
          (setDocument_subscribed _
            (setSource_subscribed demo demoWorld (fun _ _ _ _ => rfl) 0 "a.pdf") 0 (some 0))
          0 50) 0 80))
      0 [Call.setSource "b.pdf"] 0).2.2.2.1.trans (by decide),
    (runCalls_defers_rendering demo demoSized
      (polishItems_subscribed demo 3 _ 0
        (setHeight_subscribed _ (setWidth_subscribed _
          (setDocument_subscribed _
            (setSource_subscribed demo demoWorld (fun _ _ _ _ => rfl) 0 "a.pdf") 0 (some 0))
          0 50) 0 80))
      0 [Call.setSource "b.pdf"] 0).2.2.2.2.2.1 (by decide) (by decide),
    (runCalls_defers_rendering demo demoSized
      (polishItems_subscribed demo 3 _ 0
        (setHeight_subscribed _ (setWidth_subscribed _
          (setDocument_subscribed _
            (setSource_subscribed demo demoWorld (fun _ _ _ _ => rfl) 0 "a.pdf") 0 (some 0))
          0 50) 0 80))
      0 [Call.setSource "b.pdf"] 0).2.2.2.2.1.trans (by decide)⟩⟩

/-- C5 as stated fails, in two ways. A new view has no polish pending, and
after the one call `setPageNumber(0)`, which is given the page number already
held, it still has none: the polish pass runs `updatePolish` no time. View 0
of `demoIdle` has no explicit size and shows `a.pdf` at 100 by 200; after the
one call `setSource("b.pdf")` on its document, whose page is 300 by 400, the
polish pass runs `updatePolish` twice: the first run changes the width, which
requests a polish again (main.cpp:147). -/
theorem runCalls_polish_once_counterexample :
    ((demoWorld.views 0).polishScheduled = false ∧
      ((runCalls demo demoWorld 0 [Call.setPageNumber 0]).views 0).polishScheduled = false ∧
      (polishItems demo 3 (runCalls demo demoWorld 0 [Call.setPageNumber 0]) 0).2 = 0) ∧
    ((demoIdle.views 0).polishScheduled = false ∧
      ((runCalls demo demoIdle 0 [Call.setSource "b.pdf"]).views 0).polishScheduled = true ∧
      (polishItems demo 3 (runCalls demo demoIdle 0 [Call.setSource "b.pdf"]) 0).2 = 2) := by
  decide

end Deferred

end QtPdfium
